import Mathlib

/-!
Shallow embedding of the morfo build-and-run tool (Rust) in Lean 4.

Files embedded:
 - src/error.rs     : the `MorfoError` taxonomy.
 - src/config.rs    : the `Config` accessors used by the core.
 - src/utils.rs     : `file_name` (stem extraction).
 - src/act/builder.rs : `get_all_includes` (include scanner).
 - src/act/dirinfo.rs : `DirInfo` / `get_dir_info` (directory indexer).
 - src/lib.rs       : `compile`, `run`, `execute` (orchestration).
 - The dependency graph builder `ACT::build(main_file)` invoked by
   `execute` in lib.rs has no implementation in the source tree
   (act.rs only defines the ACT node type and an unrelated older
   method); it is modelled from the spec, see `ACT.build` below.

Effects are made explicit: the file system is a value (directory and
file lists plus a contents map), subprocesses are oracles from a
command to a status or an output, and each pipeline records the
subprocess invocations it performs as a trace, so that ordering and
short-circuiting properties can be stated.
-/

namespace Morfo

instance {ε α : Type} [DecidableEq ε] [DecidableEq α] : DecidableEq (Except ε α) :=
  fun a b =>
    match a, b with
    | .error e, .error f =>
      if h : e = f then isTrue (congrArg Except.error h)
      else isFalse (fun hh => h (Except.error.inj hh))
    | .error _, .ok _ => isFalse (fun hh => Except.noConfusion hh)
    | .ok _, .error _ => isFalse (fun hh => Except.noConfusion hh)
    | .ok x, .ok y =>
      if h : x = y then isTrue (congrArg Except.ok h)
      else isFalse (fun hh => h (Except.ok.inj hh))

/-- From src/error.rs: the error enumeration. The `ErrorKind` payload of
`IoError` and the path payloads are kept where claims need them; the
`std::io::ErrorKind` value itself is elided (no claim inspects it). -/
inductive MorfoError where
  | CompilationFailure (code : Option Int)
  | FileNotFound (path : String)
  | InvlidConfig (msg : String)
  | InvalidConfigExtension (ext : String)
  | InvalidUnicode
  | IoError
  | MissingConfigFile
  | MissingExecutable
  | MissingHomeDirectory
deriving DecidableEq, Repr

/-- From src/config.rs: the configuration record. `cflags`, `builddir`
and `includes` are optional exactly as in the Rust struct. -/
structure Config where
  cc : String
  cflags : Option (List String)
  builddir : Option String
  includes : Option (List String)

/-- From src/config.rs: `get_cc`. -/
def Config.get_cc (c : Config) : String := c.cc

/-- From src/config.rs: `get_cflags` (`unwrap_or_default`). -/
def Config.get_cflags (c : Config) : List String := c.cflags.getD []

/-- From src/config.rs: `get_build_dir`, defaulting to ".out". -/
def Config.get_build_dir (c : Config) : String := c.builddir.getD ".out"

/-- Rust `str::split` on a single separator character, over the char
list of the string: always returns at least one (possibly empty) piece,
exactly like Rust's `split`. -/
def splitOnChar (sep : Char) : List Char → List (List Char)
  | [] => [[]]
  | c :: rest =>
    match splitOnChar sep rest with
    | [] => [[]]
    | g :: gs => if c = sep then [] :: g :: gs else (c :: g) :: gs

/-- From src/utils.rs: `file_name` — `path.split("/").last()` then
`.split(".").next()`: the stem of the path (no directory, no extension). -/
def file_name (path : String) : String :=
  let fname := (splitOnChar '/' path.data).getLastD []
  String.mk ((splitOnChar '.' fname).headD [])

/-- Rust `PathBuf::join` for the relative, nonempty components this
program appends (a file stem never starts with `/`). -/
def joinPath (a b : String) : String :=
  if a = "" then b
  else if a.data.getLastD ' ' = '/' then a ++ b else a ++ "/" ++ b

/-! ## Include scanner (src/act/builder.rs)

`get_all_includes` reads the file and, per line, takes the first match
of the regex `#include\s*"(.*)"` (capture group 1). The regex search is
embedded directly: leftmost match position, literal `#include`, then
greedy `\s*` followed by `"` (equivalent to skipping all consecutive
whitespace, since `"` is not whitespace), then the greedy `(.*)` followed
by `"` captures up to the last `"` of the line. -/

/-- ASCII model of the regex class `\s`. -/
def isSpaceChar (c : Char) : Bool :=
  c = ' ' || c = '\t' || c = '\r' || c = '\n' || c = '\x0b' || c = '\x0c'

/-- The greedy `(.*)"`: the capture runs up to the last `"` of the
remainder; no `"` at all means the match attempt fails. -/
def upToLastQuote (cs : List Char) : Option (List Char) :=
  match cs.reverse.dropWhile (fun c => c ≠ '"') with
  | [] => none
  | _ :: pre => some pre.reverse

/-- One attempt of the regex `#include\s*"(.*)"` anchored at the head of
the list; returns the capture group: the literal `#include`, then the
whitespace run, then the opening quote, then the greedy capture. -/
def matchAt (cs : List Char) : Option (List Char) :=
  if List.isPrefixOf "#include".data cs then
    match (cs.drop 8).dropWhile isSpaceChar with
    | '"' :: rest2 => upToLastQuote rest2
    | _ => none
  else none

/-- Leftmost regex match in a line: try each start position left to
right (Rust `Regex::captures` returns the leftmost match). -/
def findInclude : List Char → Option (List Char)
  | [] => none
  | c :: rest =>
    match matchAt (c :: rest) with
    | some cap => some cap
    | none => findInclude rest

/-- The include target contributed by one line, if any. -/
def lineInclude (l : List Char) : Option String :=
  (findInclude l).map String.mk

/-- Rust `str::lines`: strip one trailing `\r` per line. -/
def stripCR (l : List Char) : List Char :=
  if l.getLastD 'x' = '\r' then l.dropLast else l

/-- Rust `str::lines`: split on `\n`, drop the final empty piece
produced by a terminating newline (so the empty string has no lines),
strip one trailing `\r` per line. -/
def linesOf (s : String) : List (List Char) :=
  let raw := splitOnChar '\n' s.data
  let raw2 := if raw.getLastD ['x'] = ([] : List Char) then raw.dropLast else raw
  raw2.map stripCR

/-- From src/act/builder.rs: `get_all_includes`. `contents` models
`fs::read_to_string`: `none` is a read failure, converted to a
`MorfoError` via the `From<std::io::Error>` impl. -/
def get_all_includes (contents : String → Option String) (filepath : String) :
    Except MorfoError (List String) :=
  match contents filepath with
  | none => .error .IoError
  | some text => .ok ((linesOf text).filterMap lineInclude)

/-! ## Directory indexer (src/act/dirinfo.rs) -/

/-- From src/act/dirinfo.rs: the classification record. -/
structure DirInfo where
  header_files : List String
  c_files : List String
deriving DecidableEq, Repr

/-- One entry yielded by the `WalkDir` iterator: a path plus whether it
is a regular file. -/
structure WalkEntry where
  path : String
  is_file : Bool
deriving DecidableEq, Repr

/-- Rust `Path::extension`: the part of the file name after the last
dot; `none` when the name has no dot or the only dot is a leading one. -/
def extension (p : String) : Option String :=
  let name := (splitOnChar '/' p.data).getLastD []
  match splitOnChar '.' name with
  | [] => none
  | [_] => none
  | [[], _] => none
  | parts => some (String.mk (parts.getLastD []))

/-- From src/act/dirinfo.rs: `get_dir_info`. The walk is a list of
entries, each either an error or a `WalkEntry` (modelling the `Result`
items of the `WalkDir` iterator); errors are skipped by the
`if let Ok(entry)` pattern, non-files are skipped, and files are
classified by extension into `header_files` / `c_files`. -/
def get_dir_info (entries : List (Except Unit WalkEntry)) : DirInfo :=
  entries.foldl
    (fun acc x =>
      match x with
      | .error _ => acc
      | .ok e =>
        if !e.is_file then acc
        else
          match extension e.path with
          | some "h" => { acc with header_files := acc.header_files ++ [e.path] }
          | some "c" => { acc with c_files := acc.c_files ++ [e.path] }
          | _ => acc)
    ⟨[], []⟩

/-! ## The build unit tree (src/act.rs) -/

/-- From src/act.rs: the `ACT` node — one source file plus its
discovered dependencies. -/
inductive ACT where
  | mk (name : String) (header : Option String) (linkers : List String)
      (dependencies : List ACT)

/-- Field accessor for `ACT.name`. -/
def ACT.name : ACT → String
  | .mk n _ _ _ => n

/-- Field accessor for `ACT.dependencies`. -/
def ACT.dependencies : ACT → List ACT
  | .mk _ _ _ deps => deps

/-- Modelled from the spec (§4.3 step 4): derive the candidate source
file from a header path by replacing its extension with `.c`. -/
def replaceExtWithC (p : String) : String :=
  let parts := splitOnChar '.' p.data
  if parts.length ≤ 1 then p ++ ".c"
  else String.mk ((List.intersperse ['.'] parts.dropLast).flatten) ++ ".c"

/-- Modelled from the spec: the Dependency Graph Builder. `execute` in
src/lib.rs calls `ACT::build(main_file)`, but no implementation of that
associated function exists in the source tree (src/act.rs only defines
the `ACT` node type), so this follows §4.3 of the spec literally:
scan the file's includes in order; for each target, match it against
`header_files` by full-path string equality; for each header match,
swap the extension to `.c` and match against `c_files` by full-path
string equality; recurse on every matching source file and append the
result as a dependency. A scanner failure contributes no dependencies
(the spec does not give `ACT::build` an error channel). The spec has no
cycle protection, so the recursion is bounded by explicit fuel; a node
reached with no fuel left gets no dependencies. -/
def ACT.build (contents : String → Option String) (index : DirInfo) :
    Nat → String → ACT
  | 0, path => .mk path none [] []
  | Nat.succ fuel, path =>
    let incs := ((get_all_includes contents path).toOption).getD []
    let srcs := incs.flatMap (fun t =>
      (index.header_files.filter (fun h => h = t)).flatMap (fun h =>
        index.c_files.filter (fun s => s = replaceExtWithC h)))
    .mk path none [] (srcs.map (ACT.build contents index fuel))

/-- Fuel used by `execute` for the graph builder; large enough for every
input considered in this development. -/
def buildFuel : Nat := 64

/-! ## The orchestration pipelines (src/lib.rs)

The ambient state is a `World`: which directories and files exist,
file contents, the two subprocess oracles (`Command::status` for the
compiler, `Command::output` for the produced executable), the walk
entries of the current directory, and the `VERBOSITY` environment
variable. `compile` additionally threads the list of directories it has
created, and both pipelines record their subprocess invocations. -/

/-- A subprocess invocation: program plus argv. -/
abbrev Cmd := String × List String

structure World where
  dirs : List String
  files : List String
  contents : String → Option String
  /-- `Command::status()`: `none` is a spawn failure (the `?`),
  `some none` is termination by signal (`status.code() == None`),
  `some (some c)` is exit code `c`. -/
  spawnStatus : String → List String → Option (Option Int)
  /-- `Command::output()`: `none` is a spawn/collect failure, otherwise
  the captured stdout bytes of the child. -/
  runOutput : String → List String → Option (List Nat)
  walk : List (Except Unit WalkEntry)
  verbosity : Bool

/-- `Path::exists` against the pre-existing world plus the directories
created so far. -/
def pathExistsIn (w : World) (dirs : List String) (p : String) : Bool :=
  dirs.contains p || w.files.contains p

/-- The parent of a path: everything before the last `/` (the current
directory, written `""`, for a single-component path). -/
def parentDir (p : String) : String :=
  let parts := splitOnChar '/' p.data
  String.mk ((List.intersperse ['/'] parts.dropLast).flatten)

/-- `fs::create_dir` (not `create_dir_all`): creates the single final
component; fails when the parent directory does not exist. -/
def createDir (dirs : List String) (p : String) : Except MorfoError (List String) :=
  if parentDir p = "" ∨ dirs.contains (parentDir p) = true then .ok (p :: dirs)
  else .error .IoError

/-- From src/lib.rs lines 48-51: create the build directory if it does
not exist. -/
def ensureDir (w : World) (cfg : Config) (dirs : List String) :
    Except MorfoError (List String) :=
  if pathExistsIn w dirs cfg.get_build_dir then .ok dirs
  else createDir dirs cfg.get_build_dir

/-- From src/lib.rs lines 58-66: the compiler argv — the flags joined
with spaces as one argument (only when the flag list is nonempty), the
unit's source path, `-o`, and `<build_dir>/<stem>`. -/
def argvOf (cfg : Config) (name : String) : List String :=
  (if cfg.get_cflags.length ≠ 0 then [String.intercalate " " cfg.get_cflags] else [])
    ++ [name, "-o", joinPath cfg.get_build_dir (file_name name)]

mutual

/-- From src/lib.rs: `compile`. Ensures the build directory, recursively
compiles the dependencies (the `for` loop with `?`), then invokes the
compiler on this unit and inspects `status.code()`. Returns the result
together with the trace of compiler invocations attempted. -/
def compile (w : World) (cfg : Config) (dirs : List String) :
    ACT → Except MorfoError (List String) × List Cmd
  | .mk name _ _ deps =>
    match ensureDir w cfg dirs with
    | .error e => (.error e, [])
    | .ok dirs1 =>
      match compileList w cfg dirs1 deps with
      | (.error e, tr) => (.error e, tr)
      | (.ok dirs2, tr) =>
        let cmd : Cmd := (cfg.get_cc, argvOf cfg name)
        match w.spawnStatus cfg.get_cc (argvOf cfg name) with
        | none => (.error .IoError, tr ++ [cmd])
        | some none => (.error (.CompilationFailure none), tr ++ [cmd])
        | some (some c) =>
          if c ≠ 0 then (.error (.CompilationFailure (some c)), tr ++ [cmd])
          else (.ok dirs2, tr ++ [cmd])
termination_by structural act => act

/-- The `for dependency in &act.dependencies \x7b compile(dependency, config)? \x7d`
loop: first failure short-circuits. -/
def compileList (w : World) (cfg : Config) (dirs : List String) :
    List ACT → Except MorfoError (List String) × List Cmd
  | [] => (.ok dirs, [])
  | d :: ds =>
    match compile w cfg dirs d with
    | (.error e, tr) => (.error e, tr)
    | (.ok dirs1, tr) =>
      let r := compileList w cfg dirs1 ds
      (r.1, tr ++ r.2)
termination_by structural l => l

end

/-- The result of the run pipeline: the returned value, the spawn trace
of the executable, the bytes written to the caller's sink (`out`), and
the lines the tool printed to its own stdout via `println!`. -/
structure RunResult where
  res : Except MorfoError Unit
  spawns : List Cmd
  sink : List Nat
  stdout : List String
deriving DecidableEq, Repr

/-- The `format!("\x7b:?\x7d", run_cmd).replace("\"", "")` echo, modelled as
the program and its arguments joined by spaces. -/
def echoCmd (exe : String) (args : List String) : String :=
  String.intercalate " " (exe :: args)

/-- From src/lib.rs: `run`. Computes `<build_dir>/<stem(act.name)>`,
fails with `MissingExecutable` when that path does not exist, otherwise
echoes the command when verbose, prints the blank separator line
unconditionally (both via `println!`, i.e. to the tool's own stdout),
spawns the executable and writes its captured stdout to the sink. -/
def run (w : World) (cfg : Config) (dirs : List String) (act : ACT)
    (prog_args : List String) : RunResult :=
  let executable := joinPath cfg.get_build_dir (file_name act.name)
  if pathExistsIn w dirs executable then
    let so := (if w.verbosity then [echoCmd executable prog_args] else []) ++ [""]
    match w.runOutput executable prog_args with
    | none => ⟨.error .IoError, [(executable, prog_args)], [], so⟩
    | some bytes => ⟨.ok (), [(executable, prog_args)], bytes, so⟩
  else ⟨.error .MissingExecutable, [], [], []⟩

/-- The ACT that `execute` builds for a main file (see `ACT.build`). -/
def builtAct (w : World) (main_file : String) : ACT :=
  ACT.build w.contents (get_dir_info w.walk) buildFuel main_file

/-- The observable outcome of `execute`: result, compiler invocation
trace, executable spawn trace, sink bytes, tool stdout lines. -/
structure ExecResult where
  res : Except MorfoError Unit
  compiles : List Cmd
  spawns : List Cmd
  sink : List Nat
  stdout : List String
deriving DecidableEq, Repr

/-- From src/lib.rs: `execute` — build the ACT, `compile(...)?`,
`run(...)?`, `Ok(())`. -/
def execute (w : World) (cfg : Config) (main_file : String)
    (prog_args : List String) : ExecResult :=
  let act := builtAct w main_file
  match compile w cfg w.dirs act with
  | (.error e, tr) => ⟨.error e, tr, [], [], []⟩
  | (.ok dirs1, tr) =>
    let r := run w cfg dirs1 act prog_args
    ⟨r.res, tr, r.spawns, r.sink, r.stdout⟩


/-! ## Helper notions and concrete instances for the theorems -/

mutual

/-- The full post-order list of compiler invocations of a tree:
dependencies first (left to right), then the node's own invocation. -/
def postorder (cfg : Config) : ACT → List Cmd
  | .mk name _ _ deps => postorderList cfg deps ++ [(cfg.get_cc, argvOf cfg name)]
termination_by structural act => act

/-- Post-order invocations of a forest, left to right. -/
def postorderList (cfg : Config) : List ACT → List Cmd
  | [] => []
  | d :: ds => postorder cfg d ++ postorderList cfg ds
termination_by structural l => l

end

/-! ## Concrete instances used by witnesses and counterexamples -/

/-- A configuration with no flags, no build dir (so ".out"), no includes. -/
def cfgPlain : Config := ⟨"cc", none, none, none⟩

/-- A world whose compiler succeeds on everything except a unit named
`bad.c`, which exits with code 2; `.out` already exists. -/
def wFail : World :=
  ⟨[".out"], [], fun _ => none,
   fun _ args => if args.contains "bad.c" then some (some 2) else some (some 0),
   fun _ _ => none, [], false⟩

def actBad : ACT := .mk "bad.c" none [] []

def actOk : ACT := .mk "ok.c" none [] []

def actMain : ACT := .mk "main.c" none [] [actBad, actOk]

/-- The file contents of the C3 scenario: `main.c` includes `"aux.h"`,
`aux.c` is empty, nothing else is readable. -/
def fsC3 : String → Option String := fun p =>
  if p = "main.c" then some "#include \"aux.h\"\n"
  else if p = "aux.c" then some "" else none

/-- The directory index of the C3 scenario: one header `aux.h`, one
source `aux.c`. -/
def idxC3 : DirInfo := ⟨["aux.h"], ["aux.c"]⟩

/-- The three-line example file of the spec. -/
def textEx : String := "#include <stdio.h>\n#include \"aux.h\"\n#include <string.h>"

/-- A world contents map holding only the example file. -/
def fsEx : String → Option String := fun p =>
  if p = "main.c" then some textEx else none

/-- A world whose compiler always reports the given status. -/
def wStatus (st : Option (Option Int)) : World :=
  ⟨[".out"], [], fun _ => none, fun _ _ => st, fun _ _ => none, [], false⟩

/-- A config with two flags and an explicit build dir. -/
def cfgFlags : Config := ⟨"gcc", some ["-O2", "-Wall"], some "build", none⟩

/-- A world where `build` exists and the compiler always exits 0. -/
def wBuild : World :=
  ⟨["build"], [], fun _ => none, fun _ _ => some (some 0), fun _ _ => none, [], false⟩

/-- A config whose build dir `out/sub` has a missing parent `out`. -/
def cfgC7 : Config := ⟨"cc", none, some "out/sub", none⟩

/-- A world with an empty file system and an always-succeeding compiler. -/
def wC7 : World :=
  ⟨[], [], fun _ => none, fun _ _ => some (some 0), fun _ _ => none, [], false⟩

/-- A world with the artifact `.out/main` present, child stdout bytes
`[72, 105]`, and the given verbosity. -/
def wRun (v : Bool) : World :=
  ⟨[".out"], [".out/main"], fun _ => none, fun _ _ => none,
   fun _ _ => some [72, 105], [], v⟩

/-! ## Lemmas -/

lemma prefix_refl {α : Type} (l : List α) : l <+: l := ⟨[], by simp⟩

lemma prefix_of_nil {α : Type} (l : List α) : ([] : List α) <+: l := ⟨l, by simp⟩

lemma prefix_extend {α : Type} {l₁ l₂ : List α} (l₃ : List α) (h : l₁ <+: l₂) :
    l₁ <+: l₂ ++ l₃ := by
  obtain ⟨t, rfl⟩ := h
  exact ⟨t ++ l₃, by simp⟩

lemma prefix_shift {α : Type} (l : List α) {t₁ t₂ : List α} (h : t₁ <+: t₂) :
    l ++ t₁ <+: l ++ t₂ := by
  obtain ⟨t, rfl⟩ := h
  exact ⟨t, by simp⟩

/-- Trace shape of `compile`: the invocation trace is always a prefix of
the post-order invocation list of the tree, and on success it is the
whole of it. Proved by strong induction on the size of the tree, with
an inner induction on the dependency list. -/
lemma compile_traceSpec (w : World) (cfg : Config) :
    ∀ n : Nat, ∀ act : ACT, sizeOf act ≤ n → ∀ dirs : List String,
      ((compile w cfg dirs act).2 <+: postorder cfg act ∧
       (∀ d, (compile w cfg dirs act).1 = .ok d →
          (compile w cfg dirs act).2 = postorder cfg act)) := by
  intro n
  induction n with
  | zero =>
    intro act hsz
    exfalso
    cases act with
    | mk name hd lk deps => simp only [ACT.mk.sizeOf_spec] at hsz; omega
  | succ n ih =>
    intro act hsz dirs
    cases act with
    | mk name hd lk deps =>
      have hdep : ∀ d ∈ deps, sizeOf d ≤ n := by
        intro d hm
        have h1 := List.sizeOf_lt_of_mem hm
        simp only [ACT.mk.sizeOf_spec] at hsz
        omega
      have hlist : ∀ ds, (∀ d ∈ ds, sizeOf d ≤ n) → ∀ dirs1,
          ((compileList w cfg dirs1 ds).2 <+: postorderList cfg ds ∧
           (∀ d2, (compileList w cfg dirs1 ds).1 = .ok d2 →
              (compileList w cfg dirs1 ds).2 = postorderList cfg ds)) := by
        intro ds
        induction ds with
        | nil =>
          intro _ dirs1
          exact ⟨prefix_refl _, fun _ _ => rfl⟩
        | cons d ds ihl =>
          intro hall dirs1
          have hdspec := ih d (hall d (by simp)) dirs1
          rcases hcd : compile w cfg dirs1 d with ⟨rd, trd⟩
          rw [hcd] at hdspec
          cases rd with
          | error e =>
            have hstep : compileList w cfg dirs1 (d :: ds) = (.error e, trd) := by
              simp [compileList, hcd]
            rw [hstep]
            constructor
            · exact prefix_extend _ hdspec.1
            · intro d2 h2; exact absurd h2 (by simp)
          | ok dirs2 =>
            have htr : trd = postorder cfg d := hdspec.2 dirs2 rfl
            have hrest := ihl (fun d hm => hall d (List.mem_cons_of_mem _ hm)) dirs2
            have hstep : compileList w cfg dirs1 (d :: ds) =
                ((compileList w cfg dirs2 ds).1, trd ++ (compileList w cfg dirs2 ds).2) := by
              simp [compileList, hcd]
            rw [hstep]
            constructor
            · subst htr
              exact prefix_shift _ hrest.1
            · intro d2 h2
              subst htr
              rw [hrest.2 d2 h2]
              simp [postorderList]
      cases hed : ensureDir w cfg dirs with
      | error e =>
        have hc : compile w cfg dirs (ACT.mk name hd lk deps) = (.error e, []) := by
          simp [compile, hed]
        rw [hc]
        exact ⟨prefix_of_nil _, fun d2 h2 => absurd h2 (by simp)⟩
      | ok dirs1 =>
        have hl := hlist deps hdep dirs1
        rcases hcl : compileList w cfg dirs1 deps with ⟨rl, trl⟩
        rw [hcl] at hl
        cases rl with
        | error e =>
          have hc : compile w cfg dirs (ACT.mk name hd lk deps) = (.error e, trl) := by
            simp [compile, hed, hcl]
          rw [hc]
          constructor
          · exact prefix_extend _ (by simpa [postorder] using hl.1)
          · intro d2 h2; exact absurd h2 (by simp)
        | ok dirs2 =>
          have htr : trl = postorderList cfg deps := hl.2 dirs2 rfl
          cases hst : w.spawnStatus cfg.get_cc (argvOf cfg name) with
          | none =>
            have hc : compile w cfg dirs (ACT.mk name hd lk deps) =
                (.error .IoError, trl ++ [(cfg.get_cc, argvOf cfg name)]) := by
              simp [compile, hed, hcl, hst]
            rw [hc]
            constructor
            · rw [htr]; exact prefix_refl _
            · intro d2 h2; exact absurd h2 (by simp)
          | some o =>
            cases o with
            | none =>
              have hc : compile w cfg dirs (ACT.mk name hd lk deps) =
                  (.error (.CompilationFailure none),
                   trl ++ [(cfg.get_cc, argvOf cfg name)]) := by
                simp [compile, hed, hcl, hst]
              rw [hc]
              constructor
              · rw [htr]; exact prefix_refl _
              · intro d2 h2; exact absurd h2 (by simp)
            | some c =>
              by_cases hc0 : c = 0
              · subst hc0
                have hc : compile w cfg dirs (ACT.mk name hd lk deps) =
                    (.ok dirs2, trl ++ [(cfg.get_cc, argvOf cfg name)]) := by
                  simp [compile, hed, hcl, hst]
                rw [hc]
                exact ⟨by rw [htr]; exact prefix_refl _, fun d2 _ => by rw [htr]; rfl⟩
              · have hc : compile w cfg dirs (ACT.mk name hd lk deps) =
                    (.error (.CompilationFailure (some c)),
                     trl ++ [(cfg.get_cc, argvOf cfg name)]) := by
                  simp [compile, hed, hcl, hst, hc0]
                rw [hc]
                constructor
                · rw [htr]; exact prefix_refl _
                · intro d2 h2; exact absurd h2 (by simp)

/-- A successful regex match attempt needs an opening quote: the
matched position contains a `"` character. -/
lemma quote_mem_of_matchAt {cs cap : List Char} (h : matchAt cs = some cap) :
    '"' ∈ cs := by
  unfold matchAt at h
  split at h
  · rename_i hpre
    split at h
    · rename_i heq
      have h1 : '"' ∈ (cs.drop 8).dropWhile isSpaceChar := by rw [heq]; simp
      have h2 : '"' ∈ cs.drop 8 :=
        (List.dropWhile_sublist isSpaceChar).mem h1
      exact (List.drop_sublist 8 cs).mem h2
    · exact absurd h (by simp)
  · exact absurd h (by simp)

/-- A line without any double quote contributes no include target. -/
lemma findInclude_eq_none_of_noQuote :
    ∀ l : List Char, (∀ c ∈ l, c ≠ '"') → findInclude l = none := by
  intro l
  induction l with
  | nil => intro _; rfl
  | cons c rest ih =>
    intro h
    have hma : matchAt (c :: rest) = none := by
      cases hm : matchAt (c :: rest) with
      | none => rfl
      | some cap => exact absurd rfl (h '"' (quote_mem_of_matchAt hm))
    simp [findInclude, hma]
    exact ih (fun c hc => h c (List.mem_cons_of_mem _ hc))

/-- Evaluation of `compile` on a leaf unit with an existing build dir:
one invocation, outcome decided by the status oracle. -/
lemma compile_leaf (w : World) (cfg : Config) (dirs : List String) (name : String)
    (hdir : pathExistsIn w dirs cfg.get_build_dir = true) :
    compile w cfg dirs (ACT.mk name none [] []) =
      (match w.spawnStatus cfg.get_cc (argvOf cfg name) with
       | none => .error .IoError
       | some none => .error (.CompilationFailure none)
       | some (some c) =>
          if c ≠ 0 then .error (.CompilationFailure (some c)) else .ok dirs,
       [(cfg.get_cc, argvOf cfg name)]) := by
  cases hst : w.spawnStatus cfg.get_cc (argvOf cfg name) with
  | none => simp [compile, compileList, ensureDir, hdir, hst]
  | some o =>
    cases o with
    | none => simp [compile, compileList, ensureDir, hdir, hst]
    | some c =>
      by_cases hc : c = 0
      · subst hc; simp [compile, compileList, ensureDir, hdir, hst]
      · simp [compile, compileList, ensureDir, hdir, hst, hc]

/-! ## The claims -/

/-- C1: for every build unit passed to `compile`, all of its
dependencies are compiled recursively before the unit's own compiler
invocation (the trace is a prefix of the post-order invocation list,
and the whole of it on success), and the first dependency failure
aborts immediately: a failing unit short-circuits the dependency loop
(no remaining siblings), and a failing dependency loop yields the
parent's result without the parent's own invocation. -/
theorem C1_compile_postorder_short_circuit :
    ∀ (w : World) (cfg : Config) (dirs : List String) (act : ACT),
      ((compile w cfg dirs act).2 <+: postorder cfg act)
      ∧ (∀ d, (compile w cfg dirs act).1 = .ok d →
          (compile w cfg dirs act).2 = postorder cfg act)
      ∧ (∀ (e : MorfoError) (tr : List Cmd) (ds : List ACT),
          compile w cfg dirs act = (.error e, tr) →
          compileList w cfg dirs (act :: ds) = (.error e, tr))
      ∧ (∀ (e : MorfoError) (tr : List Cmd) (dirs1 : List String),
          ensureDir w cfg dirs = .ok dirs1 →
          compileList w cfg dirs1 act.dependencies = (.error e, tr) →
          compile w cfg dirs act = (.error e, tr)) := by
  intro w cfg dirs act
  refine ⟨(compile_traceSpec w cfg (sizeOf act) act le_rfl dirs).1,
          (compile_traceSpec w cfg (sizeOf act) act le_rfl dirs).2, ?_, ?_⟩
  · intro e tr ds h
    simp [compileList, h]
  · intro e tr dirs1 h1 h2
    cases act with
    | mk name hd lk deps => simp [compile, ACT.dependencies] at h1 h2 ⊢; simp [h1, h2]

/-- Witness for C1 at a concrete tree: the root's trace stays a prefix
of its post-order list, and the failing first dependency `bad.c`
short-circuits past its sibling `ok.c`. -/
theorem C1_witness :
    ((compile wFail cfgPlain [".out"] actMain).2 <+: postorder cfgPlain actMain)
    ∧ compileList wFail cfgPlain [".out"] (actBad :: [actOk]) =
        (.error (.CompilationFailure (some 2)), [("cc", ["bad.c", "-o", ".out/bad"])]) :=
  ⟨(C1_compile_postorder_short_circuit wFail cfgPlain [".out"] actMain).1,
   (C1_compile_postorder_short_circuit wFail cfgPlain [".out"] actBad).2.2.1
     (.CompilationFailure (some 2)) [("cc", ["bad.c", "-o", ".out/bad"])] [actOk]
     (by decide)⟩

/-- C2: `execute` never invokes the run phase when `compile` fails, and
returns that compile error; it returns `ok` only when both phases
succeed (no partial success). -/
theorem C2_execute_no_partial_success :
    ∀ (w : World) (cfg : Config) (mf : String) (args : List String),
      (∀ (e : MorfoError) (tr : List Cmd),
        compile w cfg w.dirs (builtAct w mf) = (.error e, tr) →
        execute w cfg mf args = ⟨.error e, tr, [], [], []⟩)
      ∧ (∀ (dirs1 : List String) (tr : List Cmd),
          compile w cfg w.dirs (builtAct w mf) = (.ok dirs1, tr) →
          execute w cfg mf args =
            ⟨(run w cfg dirs1 (builtAct w mf) args).res, tr,
             (run w cfg dirs1 (builtAct w mf) args).spawns,
             (run w cfg dirs1 (builtAct w mf) args).sink,
             (run w cfg dirs1 (builtAct w mf) args).stdout⟩)
      ∧ ((execute w cfg mf args).res = .ok () →
          ∃ (dirs1 : List String) (tr : List Cmd),
            compile w cfg w.dirs (builtAct w mf) = (.ok dirs1, tr)
            ∧ (run w cfg dirs1 (builtAct w mf) args).res = .ok ()) := by
  intro w cfg mf args
  refine ⟨?_, ?_, ?_⟩
  · intro e tr h
    simp [execute, h]
  · intro dirs1 tr h
    simp [execute, h]
  · intro h
    rcases hc : compile w cfg w.dirs (builtAct w mf) with ⟨rc, tr⟩
    cases rc with
    | error e => rw [execute, hc] at h; exact absurd h (by simp)
    | ok dirs1 =>
      rw [execute, hc] at h
      exact ⟨dirs1, tr, rfl, h⟩

/-- Witness for C2: with the failing compiler world, `execute` on
`bad.c` returns the compilation failure and records no executable
spawn and no sink output. -/
theorem C2_witness :
    execute wFail cfgPlain "bad.c" [] =
      ⟨.error (.CompilationFailure (some 2)),
       [("cc", ["bad.c", "-o", ".out/bad"])], [], [], []⟩ :=
  (C2_execute_no_partial_success wFail cfgPlain "bad.c" []).1
    (.CompilationFailure (some 2)) [("cc", ["bad.c", "-o", ".out/bad"])] (by decide)

/-- C3: building the graph for `main.c` (which includes `"aux.h"`)
against an index holding `aux.h` and `aux.c` yields a root node with
exactly one dependency node named `aux.c`, itself with no
dependencies since `aux.c` includes nothing. -/
theorem C3_dependency_resolution :
    ACT.build fsC3 idxC3 buildFuel "main.c" =
      ACT.mk "main.c" none [] [ACT.mk "aux.c" none [] []] := by
  rfl

/-- C4: for every readable file, the scanner returns (without error)
the targets computed line by line in order via the leftmost regex
match, at most one per line; the empty file gives the empty list, and
a line with no double quote at all (in particular a line holding only
an angle-bracket include) contributes nothing. -/
theorem C4_include_scanner :
    ∀ (contents : String → Option String) (p text : String),
      contents p = some text →
      (get_all_includes contents p = .ok ((linesOf text).filterMap lineInclude))
      ∧ ((linesOf text).filterMap lineInclude).length ≤ (linesOf text).length
      ∧ (text = "" → get_all_includes contents p = .ok [])
      ∧ (∀ l ∈ linesOf text, (∀ c ∈ l, c ≠ '"') → lineInclude l = none) := by
  intro contents p text h
  refine ⟨by simp [get_all_includes, h], List.length_filterMap_le _ _, ?_, ?_⟩
  · intro he
    subst he
    simp [get_all_includes, h]
    decide
  · intro l _ hnq
    simp [lineInclude, findInclude_eq_none_of_noQuote l hnq]

/-- Witness for C4: on the example file with one double-quoted include
between two angle-bracket ones, the scanner returns exactly
`["aux.h"]`; on an empty file it returns `ok []`. -/
theorem C4_witness :
    (get_all_includes fsEx "main.c" = .ok ["aux.h"])
    ∧ get_all_includes (fun _ => some "") "x.c" = .ok [] := by
  constructor
  · have h := (C4_include_scanner fsEx "main.c" textEx (by decide)).1
    rw [h]
    decide
  · exact (C4_include_scanner (fun _ => some "") "x.c" "" rfl).2.2.1 rfl

/-- C5: after waiting for the compiler subprocess on a unit, `compile`
succeeds exactly when the exit code is zero, fails with
`CompilationFailure (some c)` on a nonzero exit code `c`, and fails
with `CompilationFailure none` when the process was terminated by a
signal (no exit code). Stated on a leaf unit so the invocation under
scrutiny is the unit's own. -/
theorem C5_exit_status_handling :
    ∀ (w : World) (cfg : Config) (dirs : List String) (name : String),
      pathExistsIn w dirs cfg.get_build_dir = true →
      ((w.spawnStatus cfg.get_cc (argvOf cfg name) = some (some 0) →
          compile w cfg dirs (ACT.mk name none [] []) =
            (.ok dirs, [(cfg.get_cc, argvOf cfg name)]))
       ∧ (∀ c : Int, c ≠ 0 →
            w.spawnStatus cfg.get_cc (argvOf cfg name) = some (some c) →
            compile w cfg dirs (ACT.mk name none [] []) =
              (.error (.CompilationFailure (some c)), [(cfg.get_cc, argvOf cfg name)]))
       ∧ (w.spawnStatus cfg.get_cc (argvOf cfg name) = some none →
            compile w cfg dirs (ACT.mk name none [] []) =
              (.error (.CompilationFailure none), [(cfg.get_cc, argvOf cfg name)]))) := by
  intro w cfg dirs name hdir
  refine ⟨?_, ?_, ?_⟩
  · intro hst
    rw [compile_leaf w cfg dirs name hdir, hst]
    simp
  · intro c hc hst
    rw [compile_leaf w cfg dirs name hdir, hst]
    simp [hc]
  · intro hst
    rw [compile_leaf w cfg dirs name hdir, hst]

/-- Witness for C5 at the three concrete statuses 0, 7 and signal. -/
theorem C5_witness :
    (compile (wStatus (some (some 0))) cfgPlain [".out"] (ACT.mk "m.c" none [] []) =
      (.ok [".out"], [("cc", ["m.c", "-o", ".out/m"])]))
    ∧ (compile (wStatus (some (some 7))) cfgPlain [".out"] (ACT.mk "m.c" none [] []) =
      (.error (.CompilationFailure (some 7)), [("cc", ["m.c", "-o", ".out/m"])]))
    ∧ (compile (wStatus (some none)) cfgPlain [".out"] (ACT.mk "m.c" none [] []) =
      (.error (.CompilationFailure none), [("cc", ["m.c", "-o", ".out/m"])])) := by
  refine ⟨?_, ?_, ?_⟩
  · exact ((C5_exit_status_handling (wStatus (some (some 0))) cfgPlain [".out"] "m.c"
      (by decide)).1 rfl).trans (by decide)
  · exact ((C5_exit_status_handling (wStatus (some (some 7))) cfgPlain [".out"] "m.c"
      (by decide)).2.1 7 (by decide) rfl).trans (by decide)
  · exact ((C5_exit_status_handling (wStatus (some none)) cfgPlain [".out"] "m.c"
      (by decide)).2.2 rfl).trans (by decide)

/-- Counterexample for C6 as stated: with an empty flag list the argv
is NOT `[joined-flags, source, "-o", output]` — the joined-flags
argument (which would be the empty string) is omitted entirely, because
`compile` only adds it when `get_cflags().len() != 0`. -/
theorem C6_counterexample :
    argvOf cfgPlain "main.c" ≠
      [String.intercalate " " cfgPlain.get_cflags, "main.c", "-o",
       joinPath cfgPlain.get_build_dir (file_name "main.c")] := by
  decide

/-- C6 (amended): the compiler is invoked with argv `[joined flags,
source path, "-o", <build_dir>/<stem>]` when at least one flag is
configured, and with argv `[source path, "-o", <build_dir>/<stem>]`
(the joined-flags argument omitted) when the flag list is empty. Stated
via the full invocation `compile` records for a leaf unit. -/
theorem C6_amended_argv :
    ∀ (w : World) (cfg : Config) (dirs : List String) (name : String),
      pathExistsIn w dirs cfg.get_build_dir = true →
      w.spawnStatus cfg.get_cc (argvOf cfg name) = some (some 0) →
      compile w cfg dirs (ACT.mk name none [] []) =
        (.ok dirs,
         [(cfg.get_cc,
           (if cfg.get_cflags.length ≠ 0
            then [String.intercalate " " cfg.get_cflags] else [])
           ++ [name, "-o", joinPath cfg.get_build_dir (file_name name)])]) := by
  intro w cfg dirs name hdir hst
  rw [compile_leaf w cfg dirs name hdir, hst]
  simp [argvOf]

/-- Witness for C6 (amended) on both sides: two flags joined into one
argument, and the omitted argument with no flags. -/
theorem C6_witness :
    (compile wBuild cfgFlags ["build"] (ACT.mk "src/main.c" none [] []) =
      (.ok ["build"], [("gcc", ["-O2 -Wall", "src/main.c", "-o", "build/main"])]))
    ∧ (compile (wStatus (some (some 0))) cfgPlain [".out"] (ACT.mk "src/main.c" none [] []) =
      (.ok [".out"], [("cc", ["src/main.c", "-o", ".out/main"])])) := by
  constructor
  · exact (C6_amended_argv wBuild cfgFlags ["build"] "src/main.c"
      (by decide) rfl).trans (by decide)
  · exact (C6_amended_argv (wStatus (some (some 0))) cfgPlain [".out"] "src/main.c"
      (by decide) rfl).trans (by decide)

/-- Counterexample for C7 as stated: the build dir `out/sub` is absent
and its parent `out` is missing; although the compiler oracle always
succeeds, `compile` does not create the intermediate directory — it
aborts with an I/O error before any compiler invocation, because the
code uses `create_dir`, not `create_dir_all`. -/
theorem C7_counterexample :
    compile wC7 cfgC7 [] (ACT.mk "main.c" none [] []) = (.error .IoError, [])
    ∧ parentDir cfgC7.get_build_dir = "out"
    ∧ wC7.spawnStatus "cc" (argvOf cfgC7 "main.c") = some (some 0) := by
  exact ⟨by decide, by decide, rfl⟩

/-- C7 (amended): before any compiler invocation, `compile` ensures the
build directory exists, creating only its final component when absent;
when the parent directory is itself missing the creation fails and
`compile` returns a fatal I/O error without attempting any compiler
invocation. -/
theorem C7_amended_build_dir :
    ∀ (w : World) (cfg : Config) (dirs : List String) (act : ACT),
      (pathExistsIn w dirs cfg.get_build_dir = false →
        parentDir cfg.get_build_dir ≠ "" →
        dirs.contains (parentDir cfg.get_build_dir) = false →
        compile w cfg dirs act = (.error .IoError, []))
      ∧ (pathExistsIn w dirs cfg.get_build_dir = false →
        (parentDir cfg.get_build_dir = "" ∨
          dirs.contains (parentDir cfg.get_build_dir) = true) →
        ensureDir w cfg dirs = .ok (cfg.get_build_dir :: dirs))
      ∧ (pathExistsIn w dirs cfg.get_build_dir = true →
        ensureDir w cfg dirs = .ok dirs) := by
  intro w cfg dirs act
  refine ⟨?_, ?_, ?_⟩
  · intro h1 h2 h3
    have h3' : parentDir cfg.get_build_dir ∉ dirs := by simpa using h3
    cases act with
    | mk name hd lk deps =>
      simp [compile, ensureDir, createDir, h1, h2, h3']
  · intro h1 h2
    rcases h2 with h2 | h2
    · simp [ensureDir, createDir, h1, h2]
    · have h2' : parentDir cfg.get_build_dir ∈ dirs := by simpa using h2
      simp [ensureDir, createDir, h1, h2']
  · intro h1
    simp [ensureDir, h1]

/-- Witness for C7 (amended): the missing-parent failure at `out/sub`,
and leaf-only creation of a single-component build dir `sub`. -/
theorem C7_witness :
    (compile wC7 cfgC7 [] (ACT.mk "main.c" none [] []) = (.error .IoError, []))
    ∧ ensureDir wC7 ⟨"cc", none, some "sub", none⟩ [] = .ok ["sub"] := by
  constructor
  · exact (C7_amended_build_dir wC7 cfgC7 [] (ACT.mk "main.c" none [] [])).1
      (by decide) (by decide) (by decide)
  · exact (C7_amended_build_dir wC7 ⟨"cc", none, some "sub", none⟩ []
      (ACT.mk "main.c" none [] [])).2.1 (by decide) (Or.inl (by decide))

/-- C8 (evaluation at the failing input): `get_dir_info` cannot fail —
its result type has no error channel — and it silently skips erroneous
walk entries, including the single error entry produced by walking a
nonexistent root, for which it returns an empty `DirInfo` instead of
failing; a mid-walk error entry is likewise skipped without affecting
the classification of the other entries. -/
theorem C8_root_error_skipped :
    (get_dir_info [.error ()] = ⟨[], []⟩)
    ∧ (get_dir_info [.ok ⟨"main.c", true⟩, .error (), .ok ⟨"sub/aux.h", true⟩] =
        ⟨["sub/aux.h"], ["main.c"]⟩)
    ∧ (get_dir_info [.ok ⟨"main.c", true⟩, .ok ⟨"sub/aux.h", true⟩] =
        ⟨["sub/aux.h"], ["main.c"]⟩) := by
  refine ⟨by decide, by decide, by decide⟩

/-- C9: the run phase computes the expected executable path as
`<build_dir>/<stem(main_file)>` and, when that path does not exist,
fails with `MissingExecutable` — a kind distinct from every
compilation failure — before spawning anything (empty spawn trace,
nothing written anywhere). -/
theorem C9_missing_executable :
    ∀ (w : World) (cfg : Config) (dirs : List String) (act : ACT)
      (args : List String),
      pathExistsIn w dirs (joinPath cfg.get_build_dir (file_name act.name)) = false →
      (run w cfg dirs act args = ⟨.error .MissingExecutable, [], [], []⟩
       ∧ ∀ c : Option Int,
          (MorfoError.MissingExecutable : MorfoError) ≠ .CompilationFailure c) := by
  intro w cfg dirs act args h
  constructor
  · simp [run, h]
  · exact fun c hcontr => MorfoError.noConfusion hcontr

/-- Witness for C9: in the empty world the artifact `.out/main` is
missing, so running `main.c` fails with `MissingExecutable` and spawns
nothing. -/
theorem C9_witness :
    run wC7 cfgPlain [] (ACT.mk "main.c" none [] []) [] =
      ⟨.error .MissingExecutable, [], [], []⟩ :=
  (C9_missing_executable wC7 cfgPlain [] (ACT.mk "main.c" none [] []) []
    (by decide)).1

/-- C10: on a successful run the caller's sink receives exactly the
captured stdout bytes of the child; the verbose echo line and the
unconditional blank separator line go to the tool's own stdout
(`println!`), never to the sink, and the blank line is present whether
or not verbosity is enabled. -/
theorem C10_sink_gets_exactly_child_stdout :
    ∀ (w : World) (cfg : Config) (dirs : List String) (act : ACT)
      (args : List String) (bytes : List Nat),
      pathExistsIn w dirs (joinPath cfg.get_build_dir (file_name act.name)) = true →
      w.runOutput (joinPath cfg.get_build_dir (file_name act.name)) args = some bytes →
      (run w cfg dirs act args =
        ⟨.ok (), [(joinPath cfg.get_build_dir (file_name act.name), args)], bytes,
         (if w.verbosity then
            [echoCmd (joinPath cfg.get_build_dir (file_name act.name)) args]
          else []) ++ [""]⟩
       ∧ (run w cfg dirs act args).sink = bytes
       ∧ "" ∈ (run w cfg dirs act args).stdout) := by
  intro w cfg dirs act args bytes hex hout
  have hr : run w cfg dirs act args =
      ⟨.ok (), [(joinPath cfg.get_build_dir (file_name act.name), args)], bytes,
       (if w.verbosity then
          [echoCmd (joinPath cfg.get_build_dir (file_name act.name)) args]
        else []) ++ [""]⟩ := by
    simp [run, hex, hout]
  refine ⟨hr, by rw [hr], by rw [hr]; simp⟩

/-- Witness for C10 at both verbosity settings: the sink gets exactly
the child's bytes, and the blank line is printed in both cases. -/
theorem C10_witness :
    (run (wRun true) cfgPlain [".out"] (ACT.mk "main.c" none [] []) [] =
      ⟨.ok (), [(".out/main", [])], [72, 105], [".out/main", ""]⟩)
    ∧ (run (wRun false) cfgPlain [".out"] (ACT.mk "main.c" none [] []) [] =
      ⟨.ok (), [(".out/main", [])], [72, 105], [""]⟩) := by
  constructor
  · exact ((C10_sink_gets_exactly_child_stdout (wRun true) cfgPlain [".out"]
      (ACT.mk "main.c" none [] []) [] [72, 105] (by decide) rfl).1).trans (by decide)
  · exact ((C10_sink_gets_exactly_child_stdout (wRun false) cfgPlain [".out"]
      (ACT.mk "main.c" none [] []) [] [72, 105] (by decide) rfl).1).trans (by decide)

end Morfo
